import Mathlib

/-!
Verification of the FPL award pipeline (data_pipeline.py, app.py).

Shallow embedding: the helper functions and the per-award score blocks of
the main loop are translated into executable Lean definitions.  JSON
payloads become structures; Python dicts pre-fetched by the pipeline
(manager histories, player detail histories, rank dicts) become function
or list parameters; a Python set becomes a Finset; pandas row filters and
iloc-first selections become List.filter and List.find?.
-/

namespace FplPipeline

/-- One entry of a player history list (element-summary endpoint):
the fields read by the pipeline are round and total_points. -/
structure HistEntry where
  round : Nat
  total_points : Int
deriving DecidableEq, Repr

/-- Embeds get_gw_score_from_history (data_pipeline.py lines 87-91):
next((item.get(..total_points.., 0) for item in history if item.get(..round..) == gw), 0).
The generator yields matching items in list order and next takes the first,
so this is List.find? followed by the default 0. -/
def get_gw_score_from_history (history : List HistEntry) (gw : Nat) : Int :=
  match history.find? (fun item => item.round == gw) with
  | some item => item.total_points
  | none => 0

/-- One automatic substitution pair from the picks payload. -/
structure AutoSub where
  element_out : Nat
  element_in : Nat
deriving DecidableEq, Repr

/-- The picks payload fields read by get_active_squad_ids: the ordered
15 element ids, the active chip and the automatic substitutions.
A payload that is falsy or lacks the picks key is modelled as none
at the call site. -/
structure PicksData where
  picks : List Nat
  active_chip : Option String
  automatic_subs : List AutoSub
deriving DecidableEq, Repr

/-- The loop of get_active_squad_ids over automatic_subs:
active_squad_ids.discard(sub.element_out); active_squad_ids.add(sub.element_in)
on a Python set, one pair after the other in list order. -/
def applySubs (squad : Finset Nat) : List AutoSub → Finset Nat
  | [] => squad
  | sub :: rest => applySubs (insert sub.element_in (squad.erase sub.element_out)) rest

/-- Embeds get_active_squad_ids (data_pipeline.py lines 72-78).
none models a falsy picks_data or one without a picks key (returns []).
If active_chip == bboost the function returns all picked elements at once;
otherwise it builds the set of the first 11 picks, applies the automatic
substitutions and returns the set as a list.  Python iterates a set in an
unspecified order, so the embedding fixes a deterministic one and lists
the resulting set in ascending id order. -/
def get_active_squad_ids (picks_data : Option PicksData) : List Nat :=
  match picks_data with
  | none => []
  | some pd =>
    if pd.active_chip = some "bboost" then pd.picks
    else (applySubs (pd.picks.take 11).toFinset pd.automatic_subs).sort (· ≤ ·)

/-- Well-formedness of an automatic-substitution list with respect to the
squad set it is applied to: every pair removes a player that is currently
in the active set and adds one that is not (the shape the data provider
guarantees, a non-playing starter swapped for a bench player).  This is a
verification-side predicate, not code of the repository. -/
def ValidSubs : Finset Nat → List AutoSub → Prop
  | _, [] => True
  | s, sub :: rest =>
    sub.element_out ∈ s ∧ sub.element_in ∉ s ∧
      ValidSubs (insert sub.element_in (s.erase sub.element_out)) rest

instance instDecidableValidSubs : (s : Finset Nat) → (l : List AutoSub) →
    Decidable (ValidSubs s l)
  | _, [] => isTrue trivial
  | s, sub :: rest =>
    haveI : Decidable (ValidSubs (insert sub.element_in (s.erase sub.element_out)) rest) :=
      instDecidableValidSubs _ rest
    inferInstanceAs (Decidable (_ ∧ _ ∧ _))

/-- Embeds bench_squad_ids = [p[..element..] for p in picks_data[..picks..][11:]]
(data_pipeline.py line 188). -/
def bench_squad_ids (pd : PicksData) : List Nat :=
  pd.picks.drop 11

/-- One element of the picks list with the flags read by the best_vc block. -/
structure Pick where
  element : Nat
  is_captain : Bool
  is_vice_captain : Bool
deriving DecidableEq, Repr

/-- Embeds the best_vc block (data_pipeline.py lines 235-246).
vc_points starts at 0; vc_id is the element of the first pick flagged
is_vice_captain (next(..., None)); the Python guard `if vc_id:` is falsy
both for None and for the id 0, hence the explicit 0 test; when it passes,
the score is the single-multiplier gameweek points of the vice-captain
obtained through get_gw_score_from_history.  The captain and the minutes
recorded for the captain are never consulted by this block. -/
def best_vc_score (picks : List Pick) (player_histories : Nat → List HistEntry)
    (gw : Nat) : Int :=
  match picks.find? (fun p => p.is_vice_captain) with
  | none => 0
  | some p => if p.element = 0 then 0 else get_gw_score_from_history (player_histories p.element) gw

/-- One chip entry of a manager history payload. -/
structure ChipPlay where
  name : String
  event : Nat
deriving DecidableEq, Repr

/-- One entry of the current list of a manager history payload,
restricted to the fields the embedded blocks read. -/
structure HistCurrent where
  event : Nat
  points : Int
  event_transfers_cost : Int
  overall_rank : Nat
deriving DecidableEq, Repr

/-- One entry of a manager transfer log. -/
structure TransferEvent where
  element_in : Nat
  element_out : Nat
  event : Nat
deriving DecidableEq, Repr

/-- Embeds the transfer_king block (data_pipeline.py lines 248-264).
chip_played_this_gw is the name of the first chip whose event equals gw
(None when there is none); when it is wildcard or freehit the score keeps
its initial value 0; otherwise the transfers of this gameweek are taken,
and when the list is non-empty the score is
sum(in points) - sum(out points) - event_transfers_cost of this gameweek,
every per-player point read through get_gw_score_from_history. -/
def transfer_king_score (chips : List ChipPlay) (current : List HistCurrent)
    (transfers : List TransferEvent) (player_histories : Nat → List HistEntry)
    (gw : Nat) : Int :=
  let chip_played_this_gw := (chips.find? (fun c => c.event == gw)).map (fun c => c.name)
  if chip_played_this_gw = some "wildcard" ∨ chip_played_this_gw = some "freehit" then 0
  else
    let transfers_in_gw := transfers.filter (fun t => t.event == gw)
    if transfers_in_gw.isEmpty then 0
    else
      let points_in := (transfers_in_gw.map
        (fun t => get_gw_score_from_history (player_histories t.element_in) gw)).sum
      let points_out := (transfers_in_gw.map
        (fun t => get_gw_score_from_history (player_histories t.element_out) gw)).sum
      let cost := match current.find? (fun h => h.event == gw) with
        | some h => h.event_transfers_cost
        | none => 0
      points_in - points_out - cost

/-- Embeds the bench_king block (data_pipeline.py line 267):
sum(player_details_dict.get(pid, ..).get(..history.., [])[gw-1].get(..total_points.., 0)
for pid in bench_squad_ids).
The direct index [gw-1] raises IndexError when the history list of a bench
player has fewer than gw rows; the Except models that exception, raised at
the first too-short history in generator order. -/
def bench_king_score (player_histories : Nat → List HistEntry) (bench_ids : List Nat)
    (gw : Nat) : Except String Int :=
  bench_ids.foldlM (fun acc pid =>
    match (player_histories pid).get? (gw - 1) with
    | none => Except.error "IndexError"
    | some e => Except.ok (acc + e.total_points)) 0

/-- One match row of the h2h-matches payload, restricted to the fields
the best_underdog block reads. -/
structure H2hMatch where
  event : Nat
  entry_1_entry : Nat
  entry_2_entry : Nat
  entry_1_points : Int
  entry_2_points : Int
deriving DecidableEq, Repr

/-- One row of the _time_machine_ranks sheet. -/
structure TimeMachineRow where
  gameweek : Nat
  manager_id : Nat
  manager_name : String
  classic_rank : Int
  h2h_rank : Int
deriving DecidableEq, Repr

/-- The pandas row filter of the best_underdog block followed by iloc[0]
(data_pipeline.py lines 312-315): the first h2h match row whose event is gw
and whose entry 1 or entry 2 is the manager. -/
def underdog_match (h2h_matches : List H2hMatch) (manager_id gw : Nat) : Option H2hMatch :=
  h2h_matches.find? (fun m =>
    (m.event == gw && m.entry_1_entry == manager_id) ||
    (m.event == gw && m.entry_2_entry == manager_id))

/-- The opponent_id assignment of the best_underdog block (data_pipeline.py
lines 316-321): the opponent, but only when the manager won the match on
points; a loss or a draw leaves opponent_id as None. -/
def underdog_opponent (m : H2hMatch) (manager_id : Nat) : Option Nat :=
  if m.entry_1_entry = manager_id ∧ m.entry_2_points < m.entry_1_points then
    some m.entry_2_entry
  else if m.entry_2_entry = manager_id ∧ m.entry_1_points < m.entry_2_points then
    some m.entry_1_entry
  else none

/-- The rank lookup of the best_underdog block (data_pipeline.py lines
325-326): among the time machine rows of the previous gameweek, the first
row of the opponent. -/
def underdog_prev_rank_row (time_machine : List TimeMachineRow) (oid gw : Nat) :
    Option TimeMachineRow :=
  (time_machine.filter (fun r => r.gameweek == gw - 1)).find? (fun r => r.manager_id == oid)

/-- Embeds the best_underdog block (data_pipeline.py lines 308-340).
The score starts at 0 and is only recomputed when gw > 1 and the loaded
time machine frame is non-empty; the Python guard `if opponent_id:` is
falsy for the id 0; the scoring hierarchy is the nested if of the source. -/
def best_underdog_score (time_machine : List TimeMachineRow) (h2h_matches : List H2hMatch)
    (manager_id : Nat) (gw : Nat) : Int :=
  if 1 < gw ∧ ¬ time_machine.isEmpty then
    match underdog_match h2h_matches manager_id gw with
    | none => 0
    | some m =>
      match underdog_opponent m manager_id with
      | none => 0
      | some oid =>
        if oid = 0 then 0
        else
          match underdog_prev_rank_row time_machine oid gw with
          | none => 0
          | some row =>
            if row.classic_rank = 1 ∧ row.h2h_rank = 1 then 3
            else if row.classic_rank = 1 ∨ row.h2h_rank = 1 then 2
            else if (2 ≤ row.classic_rank ∧ row.classic_rank ≤ 4) ∨
                (2 ≤ row.h2h_rank ∧ row.h2h_rank ≤ 4) then 1
            else 0
  else 0

/-- One manager of manager_df: entry id, player name, team name. -/
structure Manager where
  manager_id : Nat
  manager_name : String
  team_name : String
deriving DecidableEq, Repr

/-- Embeds new_ranks_list (data_pipeline.py lines 646-655): one row per
manager of manager_df, gameweek fixed to the recorded gameweek, the ranks
taken from the rank dicts with default 999 (dict.get(manager_id, 999)). -/
def new_ranks_list (managers : List Manager) (classic_ranks_now h2h_ranks_now : Nat → Option Int)
    (gw : Nat) : List TimeMachineRow :=
  managers.map fun m =>
    { gameweek := gw
      manager_id := m.manager_id
      manager_name := m.manager_name
      classic_rank := (classic_ranks_now m.manager_id).getD 999
      h2h_rank := (h2h_ranks_now m.manager_id).getD 999 }

/-- The sort key of the final sort_values(by=[gameweek, classic_rank])
of the time machine update, as a relation. -/
def tm_row_le (a b : TimeMachineRow) : Prop :=
  a.gameweek < b.gameweek ∨ (a.gameweek = b.gameweek ∧ a.classic_rank ≤ b.classic_rank)

instance : DecidableRel tm_row_le := fun _ _ =>
  inferInstanceAs (Decidable (_ ∨ _))

/-- Embeds the time machine update (data_pipeline.py lines 643-660):
drop the rows of the current gameweek from the loaded sheet, build one
fresh row per manager for it, concatenate and sort by gameweek then
classic_rank. -/
def update_time_machine (time_machine_df : List TimeMachineRow) (managers : List Manager)
    (classic_ranks_now h2h_ranks_now : Nat → Option Int) (gw : Nat) : List TimeMachineRow :=
  let kept := time_machine_df.filter (fun r => r.gameweek ≠ gw)
  List.insertionSort tm_row_le
    (kept ++ new_ranks_list managers classic_ranks_now h2h_ranks_now gw)

/-- One row of a wide award table just before ranking: the manager name
and the Total column (sum of the gameweek columns). -/
structure AwardRow where
  manager_name : String
  total : Int
deriving DecidableEq, Repr

/-- Descending order on the Total column. -/
def sortDescInt (l : List Int) : List Int :=
  List.insertionSort (fun a b : Int => b ≤ a) l

instance : IsTotal Int (fun a b : Int => b ≤ a) := ⟨fun a b => le_total b a⟩

instance : IsTrans Int (fun a b : Int => b ≤ a) := ⟨fun _ _ _ h1 h2 => le_trans h2 h1⟩

/-- Embeds final_df[Total].rank(method=min, ascending=False)
(data_pipeline.py line 361) for one value of the column: pandas assigns
each row the smallest 1-based ordinal position of its value in the
descending ordering of the column, which is the position of the first
occurrence of the value in the descending sorted column, plus one. -/
def rank_min_desc (totals : List Int) (v : Int) : Nat :=
  (sortDescInt totals).indexOf v + 1

/-- The sort key of final_df.sort_values(by=[Standings, manager_name])
(data_pipeline.py line 362). -/
def standings_row_le (x y : AwardRow × Nat) : Prop :=
  x.2 < y.2 ∨ (x.2 = y.2 ∧ x.1.manager_name ≤ y.1.manager_name)

instance : DecidableRel standings_row_le := fun _ _ =>
  inferInstanceAs (Decidable (_ ∨ _))

/-- Embeds the ranking step of the award publishing loop
(data_pipeline.py lines 361-362): attach to every row the Standings rank
of its Total, then sort the rows by Standings and manager name. -/
def award_standings (rows : List AwardRow) : List (AwardRow × Nat) :=
  List.insertionSort standings_row_le
    (rows.map (fun r => (r, rank_min_desc (rows.map (fun s => s.total)) r.total)))

/-- Outcome of one HTTP request made by get_json_from_url: either a JSON
payload (abstracted to a number) or a raised requests exception carrying
the HTTP status, as produced by raise_for_status; a status of 429 is the
rate-limit signal. -/
inductive FetchOutcome where
  | success (json : Nat)
  | requestException (status : Nat)
deriving DecidableEq, Repr

/-- Embeds get_json_from_url (data_pipeline.py lines 62-70): a single
request is made; its payload is returned on success, and every
requests.exceptions.RequestException, the rate-limit status included, is
caught, logged and turned into None.  No retry, no wait, no re-raise. -/
def get_json_from_url (outcome : FetchOutcome) : Option Nat :=
  match outcome with
  | FetchOutcome.success j => some j
  | FetchOutcome.requestException _ => none

/-- Outcome of one attempt of a gspread api call: a value or a raised
gspread APIError with its HTTP status code. -/
inductive ApiCallOutcome where
  | ok (v : Nat)
  | apiError (status : Nat)
deriving DecidableEq, Repr

/-- Result of safe_gspread_api_call as observable from the caller. -/
inductive GspreadResult where
  | ok (v : Nat)
  | apiError (status : Nat)
  | nameError
  | retriesExhausted
deriving DecidableEq, Repr

/-- app.py imports streamlit, pandas, gspread, google Credentials, the
gspread exceptions and plotly, and nothing else: the module-level name
time is unbound, so evaluating time.sleep in safe_gspread_api_call raises
NameError. -/
def app_py_imports_time : Bool := false

/-- The attempt loop of safe_gspread_api_call (app.py lines 14-25), with
the remaining attempt count as the structural fuel.  Each attempt calls
the wrapped function: a value returns; an APIError of status 429 computes
wait_time = initial_delay * 2 ^ attempt and evaluates time.sleep, which
only proceeds to the next attempt when the module has imported time and
otherwise raises NameError; any other APIError is re-raised at once.  A
loop that runs out of attempts raises the plain Exception about failing
after multiple retries, modelled as retriesExhausted. -/
def safe_gspread_api_call_from (calls : Nat → ApiCallOutcome) (initial_delay : Nat) :
    Nat → Nat → GspreadResult
  | _, 0 => GspreadResult.retriesExhausted
  | attempt, rest + 1 =>
    match calls attempt with
    | ApiCallOutcome.ok v => GspreadResult.ok v
    | ApiCallOutcome.apiError s =>
      if s = 429 then
        if app_py_imports_time then
          safe_gspread_api_call_from calls initial_delay (attempt + 1) rest
        else GspreadResult.nameError
      else GspreadResult.apiError s

/-- Embeds safe_gspread_api_call (app.py lines 14-25) at its default
arguments max_retries=3 and initial_delay=2. -/
def safe_gspread_api_call (calls : Nat → ApiCallOutcome) : GspreadResult :=
  safe_gspread_api_call_from calls 2 0 3

/-! Helper lemmas. -/

/-- find? returns the entry at the first position whose round matches. -/
theorem find?_round_of_first (history : List HistEntry) (gw : Nat) :
    ∀ (i : Nat) (e : HistEntry), history.get? i = some e → e.round = gw →
      (∀ j ej, j < i → history.get? j = some ej → ej.round ≠ gw) →
      history.find? (fun item => item.round == gw) = some e := by
  induction history with
  | nil => intro i e hget _ _; simp at hget
  | cons a t ih =>
    intro i e hget he hfirst
    cases i with
    | zero =>
      simp only [List.get?] at hget
      cases hget
      simp [List.find?, he]
    | succ k =>
      have ha : a.round ≠ gw := hfirst 0 a (Nat.succ_pos k) rfl
      have hbeq : (a.round == gw) = false := by simp [ha]
      simp only [List.find?, hbeq]
      exact ih k e hget he (fun j ej hj hget2 => hfirst (j + 1) ej (Nat.succ_lt_succ hj) hget2)

/-- Applying a well-formed substitution list preserves the size of the
squad set: each pair removes one present player and adds one absent one. -/
theorem applySubs_card (l : List AutoSub) (s : Finset Nat) (h : ValidSubs s l) :
    (applySubs s l).card = s.card := by
  induction l generalizing s with
  | nil => rfl
  | cons sub rest ih =>
    rw [ValidSubs] at h
    obtain ⟨hout, hin, hrest⟩ := h
    have hpos : 0 < s.card := Finset.card_pos.mpr ⟨sub.element_out, hout⟩
    have hnotin : sub.element_in ∉ s.erase sub.element_out := fun hmem =>
      hin (Finset.mem_of_mem_erase hmem)
    rw [applySubs, ih _ hrest, Finset.card_insert_of_not_mem hnotin,
      Finset.card_erase_of_mem hout]
    omega

/-- In a list sorted in descending order, the index of the first occurrence
of a member equals the number of strictly greater elements. -/
theorem indexOf_sorted_desc (l : List Int) (hs : l.Sorted (fun a b : Int => b ≤ a)) :
    ∀ v ∈ l, l.indexOf v = l.countP (fun x => decide (v < x)) := by
  induction l with
  | nil => intro v hv; cases hv
  | cons a t ih =>
    intro v hv
    rw [List.sorted_cons] at hs
    obtain ⟨ha, hts⟩ := hs
    rw [List.countP_cons]
    by_cases hav : a = v
    · subst hav
      rw [List.indexOf_cons_self]
      have h1 : (decide (a < a)) = false := by simp
      have h2 : t.countP (fun x => decide (a < x)) = 0 := by
        rw [List.countP_eq_zero]
        intro x hx
        simpa using not_lt.mpr (ha x hx)
      rw [h1, h2]
      simp
    · have hvt : v ∈ t := by
        rcases List.mem_cons.mp hv with h | h
        · exact absurd h.symm hav
        · exact h
      have hva : v < a := lt_of_le_of_ne (ha v hvt) (fun h => hav h.symm)
      rw [List.indexOf_cons_ne _ hav, ih hts v hvt]
      simp [hva, Nat.succ_eq_add_one]

/-- The pandas min-method descending rank of a value in a column is one
plus the number of strictly greater values in the column. -/
theorem rank_min_desc_eq (totals : List Int) (v : Int) (hv : v ∈ totals) :
    rank_min_desc totals v = 1 + totals.countP (fun x => decide (v < x)) := by
  unfold rank_min_desc sortDescInt
  have hperm := List.perm_insertionSort (fun a b : Int => b ≤ a) totals
  have hsorted := List.sorted_insertionSort (fun a b : Int => b ≤ a) totals
  rw [indexOf_sorted_desc _ hsorted v (hperm.mem_iff.mpr hv), hperm.countP_eq]
  omega

/-! Claim theorems. -/

/-- C10: get_gw_score_from_history returns the total_points of the first
history entry whose round equals the gameweek, and 0 when no entry
matches; in particular on a double gameweek, where two entries carry the
same round, only the first one is counted, not the sum of both. -/
theorem C10_first_matching_round_only (history : List HistEntry) (gw : Nat) :
    (∀ (i : Nat) (e : HistEntry), history.get? i = some e → e.round = gw →
        (∀ j ej, j < i → history.get? j = some ej → ej.round ≠ gw) →
        get_gw_score_from_history history gw = e.total_points) ∧
    ((∀ e ∈ history, e.round ≠ gw) → get_gw_score_from_history history gw = 0) ∧
    get_gw_score_from_history
        [{ round := gw, total_points := 4 }, { round := gw, total_points := 9 }] gw = 4 := by
  refine ⟨?_, ?_, ?_⟩
  · intro i e hget he hfirst
    unfold get_gw_score_from_history
    rw [find?_round_of_first history gw i e hget he hfirst]
  · intro h
    unfold get_gw_score_from_history
    have : history.find? (fun item => item.round == gw) = none := by
      rw [List.find?_eq_none]
      intro e he
      simpa using h e he
    rw [this]
  · simp [get_gw_score_from_history]

/-- Witness for C10 at a concrete double-gameweek history: the second
entry of round 2 is ignored. -/
theorem C10_witness :
    get_gw_score_from_history
        [{ round := 1, total_points := 3 }, { round := 2, total_points := 5 },
         { round := 2, total_points := 8 }] 2 = 5 :=
  (C10_first_matching_round_only
      [{ round := 1, total_points := 3 }, { round := 2, total_points := 5 },
       { round := 2, total_points := 8 }] 2).1 1 { round := 2, total_points := 5 } rfl rfl
    (by
      intro j ej hj hget
      cases Nat.lt_one_iff.mp hj
      cases hget
      decide)

/-- C5: the claim says every calculator treats a missing per-player
history entry as zero and never raises, but the bench_king block indexes
the history list directly at position gw-1, which raises IndexError for a
bench player whose recorded history has fewer than gw rows; the safe
helper get_gw_score_from_history would have returned 0 for the same
player and gameweek. -/
theorem C5_bench_king_raises_on_short_history :
    bench_king_score (fun _ => [{ round := 1, total_points := 2 }]) [10] 3 =
      Except.error "IndexError" ∧
    get_gw_score_from_history [{ round := 1, total_points := 2 }] 3 = 0 :=
  ⟨rfl, rfl⟩

/-- C2 counterexample: a 15-player selection whose single automatic
substitution names an element_out that is not in the starting eleven (a
bench player): discard is a no-op, add still inserts, and the resolved
active squad has 12 members, not 11, with no bench-boost chip active. -/
theorem C2_counterexample :
    (let pd : PicksData :=
      { picks := [1, 2, 3, 4, 5, 6, 7, 8, 9, 10, 11, 12, 13, 14, 15]
        active_chip := none
        automatic_subs := [{ element_out := 12, element_in := 99 }] }
     pd.picks.length = 15 ∧ pd.picks.Nodup ∧ pd.active_chip ≠ some "bboost" ∧
       (get_active_squad_ids (some pd)).length = 12) := by
  refine ⟨rfl, by decide, by decide, ?_⟩
  simp only [get_active_squad_ids]
  rw [if_neg (by decide : ¬ (none : Option String) = some "bboost"), Finset.length_sort]
  decide

/-- C2 as amended: for a picks payload with 15 distinct picks whose
automatic substitutions are well-formed against the evolving active set
(each pair removes a present player and adds an absent one), the resolved
active squad has exactly 11 members, or 15 under the bench-boost chip. -/
theorem C2_amended_squad_size (pd : PicksData) (h15 : pd.picks.length = 15)
    (hnd : pd.picks.Nodup)
    (hsubs : ValidSubs (pd.picks.take 11).toFinset pd.automatic_subs) :
    (get_active_squad_ids (some pd)).length =
      if pd.active_chip = some "bboost" then 15 else 11 := by
  simp only [get_active_squad_ids]
  by_cases hchip : pd.active_chip = some "bboost"
  · simp [hchip, h15]
  · rw [if_neg hchip, if_neg hchip, Finset.length_sort, applySubs_card _ _ hsubs,
      List.toFinset_card_of_nodup ((List.take_sublist 11 pd.picks).nodup hnd),
      List.length_take, h15]
    decide

/-- Witness for C2 at a concrete well-formed selection: a starter is
swapped out for a bench player and the active squad keeps 11 members. -/
theorem C2_witness :
    (get_active_squad_ids (some
      (PicksData.mk [1, 2, 3, 4, 5, 6, 7, 8, 9, 10, 11, 12, 13, 14, 15] none
        [AutoSub.mk 1 12]))).length =
      if (PicksData.mk [1, 2, 3, 4, 5, 6, 7, 8, 9, 10, 11, 12, 13, 14, 15] none
          [AutoSub.mk 1 12]).active_chip = some "bboost" then 15 else 11 :=
  C2_amended_squad_size _ rfl (by decide) (by decide)

/-- C3 counterexample: with the bench-boost chip active and a non-empty
automatic_subs list, get_active_squad_ids returns the 15 picked elements
unchanged: the incoming player 99 is absent from the result and the
outgoing player 1 is still present, so the substitutions were not applied. -/
theorem C3_counterexample :
    (let pd : PicksData :=
      { picks := [1, 2, 3, 4, 5, 6, 7, 8, 9, 10, 11, 12, 13, 14, 15]
        active_chip := some "bboost"
        automatic_subs := [{ element_out := 1, element_in := 99 }] }
     pd.automatic_subs ≠ [] ∧ pd.active_chip = some "bboost" ∧
       get_active_squad_ids (some pd) = pd.picks ∧
       1 ∈ get_active_squad_ids (some pd) ∧ 99 ∉ get_active_squad_ids (some pd)) := by
  refine ⟨by decide, rfl, rfl, by decide, by decide⟩

/-- C3 as amended: when the active chip is bench-boost the function
returns the 15 picked elements as they are and the automatic_subs list is
ignored entirely: the result does not depend on it; substitutions are
applied only in the branch taken when the chip is not bench-boost. -/
theorem C3_amended_bboost_ignores_subs (pd : PicksData) (subs2 : List AutoSub)
    (hchip : pd.active_chip = some "bboost") :
    get_active_squad_ids (some pd) = pd.picks ∧
    get_active_squad_ids (some { pd with automatic_subs := subs2 }) =
      get_active_squad_ids (some pd) := by
  simp only [get_active_squad_ids]
  rw [if_pos hchip]
  exact ⟨rfl, by rw [if_pos hchip]⟩

/-- Witness for C3 as amended at a concrete bench-boost payload. -/
theorem C3_witness :
    get_active_squad_ids (some
      { picks := [1, 2, 3, 4, 5, 6, 7, 8, 9, 10, 11, 12, 13, 14, 15]
        active_chip := some "bboost"
        automatic_subs := [{ element_out := 2, element_in := 50 }] }) =
      [1, 2, 3, 4, 5, 6, 7, 8, 9, 10, 11, 12, 13, 14, 15] :=
  (C3_amended_bboost_ignores_subs _ [] rfl).1

/-- C4 counterexample: a squad whose captain (element 7) recorded zero
minutes in the gameweek while the vice-captain (element 8) scored 7
points: the best_vc block, which never consults the captain or the live
minutes, returns 7, not the 0 the claim requires. -/
theorem C4_counterexample :
    (let picks : List Pick :=
      [{ element := 7, is_captain := true, is_vice_captain := false },
       { element := 8, is_captain := false, is_vice_captain := true }]
     let player_histories : Nat → List HistEntry :=
       fun pid => if pid = 8 then [{ round := 1, total_points := 7 }] else []
     let live_minutes : Nat → Nat := fun _ => 0
     picks.find? (fun p => p.is_captain) =
         some { element := 7, is_captain := true, is_vice_captain := false } ∧
       live_minutes 7 = 0 ∧
       best_vc_score picks player_histories 1 = 7 ∧ (7 : Int) ≠ 0) := by
  exact ⟨rfl, rfl, rfl, by decide⟩

/-- C4 as amended: the best_vc score equals the vice-captain own
single-multiplier points for the gameweek whenever a vice-captain with a
nonzero id is flagged, irrespective of the captain minutes (which the
block never reads), and is 0 when no pick is flagged vice-captain. -/
theorem C4_amended_vc_score (picks : List Pick) (player_histories : Nat → List HistEntry)
    (gw : Nat) :
    (∀ p, picks.find? (fun q => q.is_vice_captain) = some p → p.element ≠ 0 →
        best_vc_score picks player_histories gw =
          get_gw_score_from_history (player_histories p.element) gw) ∧
    (picks.find? (fun q => q.is_vice_captain) = none →
        best_vc_score picks player_histories gw = 0) := by
  constructor
  · intro p hp hne
    unfold best_vc_score
    rw [hp]
    simp [hne]
  · intro h
    unfold best_vc_score
    rw [h]

/-- Witness for C4 as amended at a concrete squad. -/
theorem C4_witness :
    best_vc_score [{ element := 8, is_captain := false, is_vice_captain := true }]
        (fun _ => [{ round := 3, total_points := 11 }]) 3 =
      get_gw_score_from_history [{ round := 3, total_points := 11 }] 3 :=
  (C4_amended_vc_score [{ element := 8, is_captain := false, is_vice_captain := true }]
      (fun _ => [{ round := 3, total_points := 11 }]) 3).1
    { element := 8, is_captain := false, is_vice_captain := true } rfl (by decide)

/-- C6: the transfer_king score of a gameweek is 0 when the chip played
that gameweek is wildcard or freehit, even if transfers were recorded; 0
when no transfer has this gameweek as its event; and otherwise the sum of
the incoming players single-gameweek points minus the sum of the outgoing
players single-gameweek points minus the transfer cost charged in that
gameweek of the manager history. -/
theorem C6_transfer_king (chips : List ChipPlay) (current : List HistCurrent)
    (transfers : List TransferEvent) (player_histories : Nat → List HistEntry) (gw : Nat) :
    (((chips.find? (fun c => c.event == gw)).map (fun c => c.name) = some "wildcard" ∨
      (chips.find? (fun c => c.event == gw)).map (fun c => c.name) = some "freehit") →
        transfer_king_score chips current transfers player_histories gw = 0) ∧
    (transfers.filter (fun t => t.event == gw) = [] →
        transfer_king_score chips current transfers player_histories gw = 0) ∧
    (¬((chips.find? (fun c => c.event == gw)).map (fun c => c.name) = some "wildcard" ∨
       (chips.find? (fun c => c.event == gw)).map (fun c => c.name) = some "freehit") →
     transfers.filter (fun t => t.event == gw) ≠ [] →
        transfer_king_score chips current transfers player_histories gw =
          ((transfers.filter (fun t => t.event == gw)).map
            (fun t => get_gw_score_from_history (player_histories t.element_in) gw)).sum -
          ((transfers.filter (fun t => t.event == gw)).map
            (fun t => get_gw_score_from_history (player_histories t.element_out) gw)).sum -
          (match current.find? (fun h => h.event == gw) with
            | some h => h.event_transfers_cost
            | none => 0)) := by
  unfold transfer_king_score
  refine ⟨?_, ?_, ?_⟩
  · intro h
    rw [if_pos h]
  · intro h
    by_cases hchip : (chips.find? (fun c => c.event == gw)).map (fun c => c.name) =
        some "wildcard" ∨
        (chips.find? (fun c => c.event == gw)).map (fun c => c.name) = some "freehit"
    · rw [if_pos hchip]
    · rw [if_neg hchip]
      simp only [h, List.isEmpty_nil, if_pos]
  · intro hchip htr
    rw [if_neg hchip, if_neg (by simpa [List.isEmpty_iff] using htr)]

/-- Witness for C6: a wildcard gameweek with a recorded transfer still
scores 0. -/
theorem C6_witness :
    transfer_king_score [ChipPlay.mk "wildcard" 5] [] [TransferEvent.mk 2 3 5]
      (fun _ => [HistEntry.mk 5 9]) 5 = 0 :=
  (C6_transfer_king [ChipPlay.mk "wildcard" 5] [] [TransferEvent.mk 2 3 5]
    (fun _ => [HistEntry.mk 5 9]) 5).1 (Or.inl rfl)

/-- C9 counterexample: the pipeline fetch, get_json_from_url, is a remote
fetch and is not wrapped in any retry policy: a rate-limited request (the
429 status raised by raise_for_status) is caught and turned into None in
a single attempt, neither retried nor re-raised as an exhausted error;
and the dashboard wrapper, on a first-attempt 429 followed by an
available value, raises NameError (app.py never imports time) instead of
waiting and retrying. -/
theorem C9_counterexample :
    get_json_from_url (FetchOutcome.requestException 429) = none ∧
    safe_gspread_api_call
        (fun n => if n = 0 then ApiCallOutcome.apiError 429 else ApiCallOutcome.ok 5) =
      GspreadResult.nameError :=
  ⟨rfl, rfl⟩

/-- C9 as amended: only the dashboard gspread calls go through the retry
wrapper safe_gspread_api_call (max_retries 3, initial_delay 2): a
first-attempt success returns its value, a non-429 APIError propagates
immediately, and a 429 reaches the wait step, which raises NameError
because app.py does not import time; the pipeline fetch
get_json_from_url makes a single attempt and returns None on any request
failure, rate limits included, without retrying or raising. -/
theorem C9_amended_gateway (calls : Nat → ApiCallOutcome) (v s : Nat) :
    (∀ st, get_json_from_url (FetchOutcome.requestException st) = none) ∧
    (∀ j, get_json_from_url (FetchOutcome.success j) = some j) ∧
    (calls 0 = ApiCallOutcome.ok v → safe_gspread_api_call calls = GspreadResult.ok v) ∧
    (calls 0 = ApiCallOutcome.apiError s → s ≠ 429 →
        safe_gspread_api_call calls = GspreadResult.apiError s) ∧
    (calls 0 = ApiCallOutcome.apiError 429 →
        safe_gspread_api_call calls = GspreadResult.nameError) := by
  refine ⟨fun _ => rfl, fun _ => rfl, ?_, ?_, ?_⟩
  · intro h
    unfold safe_gspread_api_call safe_gspread_api_call_from
    rw [h]
  · intro h hne
    unfold safe_gspread_api_call safe_gspread_api_call_from
    rw [h]
    simp [hne]
  · intro h
    unfold safe_gspread_api_call safe_gspread_api_call_from
    rw [h]
    simp [app_py_imports_time]

/-- Witness for C9 as amended: a non-rate-limit APIError propagates at
once. -/
theorem C9_witness :
    safe_gspread_api_call (fun _ => ApiCallOutcome.apiError 500) =
      GspreadResult.apiError 500 :=
  (C9_amended_gateway (fun _ => ApiCallOutcome.apiError 500) 0 500).2.2.2.1 rfl (by decide)

/-- C7: the best_underdog score of a gameweek gw > 1 in which the manager
won the head-to-head match is 3 when the opponent rank as of gw-1 was 1
in both ranking systems, 2 when it was 1 in exactly one, 1 when it was
2 to 4 in either, and 0 otherwise; gameweek 1, an empty rank store, a
loss or a draw (no opponent assigned), and a missing opponent history row
all yield 0. -/
theorem C7_best_underdog (tm : List TimeMachineRow) (ms : List H2hMatch) (mid gw : Nat) :
    best_underdog_score tm ms mid 1 = 0 ∧
    (tm.isEmpty → best_underdog_score tm ms mid gw = 0) ∧
    (∀ m, underdog_match ms mid gw = some m → underdog_opponent m mid = none →
        best_underdog_score tm ms mid gw = 0) ∧
    (∀ m oid, underdog_match ms mid gw = some m → underdog_opponent m mid = some oid →
        underdog_prev_rank_row tm oid gw = none → best_underdog_score tm ms mid gw = 0) ∧
    (1 < gw → ¬ tm.isEmpty →
      ∀ m oid row, underdog_match ms mid gw = some m → underdog_opponent m mid = some oid →
        oid ≠ 0 → underdog_prev_rank_row tm oid gw = some row →
        best_underdog_score tm ms mid gw =
          if row.classic_rank = 1 ∧ row.h2h_rank = 1 then 3
          else if (row.classic_rank = 1 ∧ row.h2h_rank ≠ 1) ∨
              (row.classic_rank ≠ 1 ∧ row.h2h_rank = 1) then 2
          else if (2 ≤ row.classic_rank ∧ row.classic_rank ≤ 4) ∨
              (2 ≤ row.h2h_rank ∧ row.h2h_rank ≤ 4) then 1
          else 0) := by
  unfold best_underdog_score
  refine ⟨by simp, ?_, ?_, ?_, ?_⟩
  · intro h
    simp [h]
  · intro m hm hop
    by_cases hg : 1 < gw ∧ ¬ tm.isEmpty = true
    · rw [if_pos hg, hm]
      simp [hop]
    · rw [if_neg hg]
  · intro m oid hm hop hrow
    by_cases hg : 1 < gw ∧ ¬ tm.isEmpty = true
    · rw [if_pos hg, hm]
      simp [hop, hrow]
    · rw [if_neg hg]
  · intro hg1 hg2 m oid row hm hop h0 hrow
    rw [if_pos ⟨hg1, hg2⟩, hm]
    simp only [hop, hrow, if_neg h0]
    by_cases hc : row.classic_rank = 1 <;> by_cases hh : row.h2h_rank = 1 <;>
      simp [hc, hh]

/-- Witness for C7: a win in gameweek 2 over the opponent who was rank 1
in both systems as of gameweek 1 scores 3. -/
theorem C7_witness :
    best_underdog_score [TimeMachineRow.mk 1 20 "leader" 1 1] [H2hMatch.mk 2 10 20 50 40]
      10 2 = 3 :=
  ((C7_best_underdog [TimeMachineRow.mk 1 20 "leader" 1 1] [H2hMatch.mk 2 10 20 50 40]
      10 2).2.2.2.2 (by decide) (by decide) (H2hMatch.mk 2 10 20 50 40) 20
      (TimeMachineRow.mk 1 20 "leader" 1 1) (by decide) (by decide) (by decide)
      (by decide)).trans (by decide)

/-- C1: in every published award table, the Standings rank attached to a
row equals 1 plus the number of rows with a strictly greater Total
(competition ranking); the totals 50, 50, 40 receive the ranks 1, 1, 3;
and the final sort by Standings and manager name only permutes the rows
carrying their already-computed ranks, so the secondary name key can
never change a numeric rank. -/
theorem C1_competition_ranking :
    (∀ (rows : List AwardRow) (pr : AwardRow × Nat), pr ∈ award_standings rows →
        pr.2 = 1 + rows.countP (fun r => decide (pr.1.total < r.total))) ∧
    (([{ manager_name := "Alice", total := 50 }, { manager_name := "Bob", total := 50 },
       { manager_name := "Carol", total := 40 }] : List AwardRow).map
        (fun r => rank_min_desc [50, 50, 40] r.total) = [1, 1, 3]) ∧
    (∀ rows : List AwardRow, List.Perm (award_standings rows)
        (rows.map (fun r => (r, rank_min_desc (rows.map (fun s => s.total)) r.total)))) := by
  refine ⟨?_, by decide, fun rows => List.perm_insertionSort _ _⟩
  intro rows pr hpr
  unfold award_standings at hpr
  have hperm := List.perm_insertionSort standings_row_le
    (rows.map (fun r => (r, rank_min_desc (rows.map (fun s => s.total)) r.total)))
  obtain ⟨r, hr, hpr_eq⟩ := List.mem_map.mp (hperm.mem_iff.mp hpr)
  subst hpr_eq
  show rank_min_desc (rows.map (fun s => s.total)) r.total =
    1 + rows.countP (fun s => decide (r.total < s.total))
  rw [rank_min_desc_eq _ _ (List.mem_map_of_mem _ hr), List.countP_map]
  rfl

/-- Witness for C1 at a published table with distinct totals: the rank of
the second-placed manager is 1 plus the one row with a greater total. -/
theorem C1_witness :
    ((AwardRow.mk "Ben" 30, 2) : AwardRow × Nat).2 =
      1 + ([AwardRow.mk "Ann" 50, AwardRow.mk "Ben" 30]).countP
        (fun r => decide ((AwardRow.mk "Ben" 30, 2).1.total < r.total)) :=
  C1_competition_ranking.1 [AwardRow.mk "Ann" 50, AwardRow.mk "Ben" 30]
    (AwardRow.mk "Ben" 30, 2) (by decide)

/-- C8: updating the time machine for a gameweek first drops every loaded
row of that gameweek and then adds exactly one fresh row per manager, so
the updated store carries no duplicate (gameweek, manager) row for it
(the per-manager ids of its rows are distinct), its rows for every other
gameweek are exactly the loaded ones up to the final sort, and re-running
the update for the same gameweek reproduces the same store up to order
(idempotent upsert). -/
theorem C8_time_machine_upsert (df : List TimeMachineRow) (managers : List Manager)
    (cr hr : Nat → Option Int) (gw : Nat)
    (hnd : (managers.map (fun m => m.manager_id)).Nodup) :
    (((update_time_machine df managers cr hr gw).filter
        (fun r => r.gameweek = gw)).map (fun r => r.manager_id)).Nodup ∧
    ((update_time_machine df managers cr hr gw).filter
        (fun r => r.gameweek = gw)).length = managers.length ∧
    List.Perm ((update_time_machine df managers cr hr gw).filter (fun r => r.gameweek ≠ gw))
      (df.filter (fun r => r.gameweek ≠ gw)) ∧
    List.Perm
      (update_time_machine (update_time_machine df managers cr hr gw) managers cr hr gw)
      (update_time_machine df managers cr hr gw) := by
  have hnew : ∀ r ∈ new_ranks_list managers cr hr gw, r.gameweek = gw := by
    intro r hrm
    obtain ⟨m, _, rfl⟩ := List.mem_map.mp hrm
    rfl
  have hperm : List.Perm (update_time_machine df managers cr hr gw)
      (df.filter (fun r => r.gameweek ≠ gw) ++ new_ranks_list managers cr hr gw) := by
    unfold update_time_machine
    exact List.perm_insertionSort _ _
  have hfilter_gw : List.Perm ((update_time_machine df managers cr hr gw).filter
      (fun r => r.gameweek = gw)) (new_ranks_list managers cr hr gw) := by
    have h1 := List.Perm.filter (fun r => decide (r.gameweek = gw)) hperm
    rw [List.filter_append] at h1
    have h2 : (df.filter (fun r => r.gameweek ≠ gw)).filter (fun r => r.gameweek = gw) = [] := by
      rw [List.filter_eq_nil_iff]
      intro a ha
      have := (List.mem_filter.mp ha).2
      simp only [decide_eq_true_eq] at this ⊢
      exact this
    have h3 : (new_ranks_list managers cr hr gw).filter (fun r => r.gameweek = gw) =
        new_ranks_list managers cr hr gw := by
      rw [List.filter_eq_self]
      intro a ha
      simp [hnew a ha]
    rw [h2, h3] at h1
    simpa using h1
  have hfilter_ne : List.Perm ((update_time_machine df managers cr hr gw).filter
      (fun r => r.gameweek ≠ gw)) (df.filter (fun r => r.gameweek ≠ gw)) := by
    have h1 := List.Perm.filter (fun r => decide (r.gameweek ≠ gw)) hperm
    rw [List.filter_append] at h1
    have h2 : (df.filter (fun r => r.gameweek ≠ gw)).filter (fun r => r.gameweek ≠ gw) =
        df.filter (fun r => r.gameweek ≠ gw) := by
      rw [List.filter_eq_self]
      intro a ha
      exact (List.mem_filter.mp ha).2
    have h3 : (new_ranks_list managers cr hr gw).filter (fun r => r.gameweek ≠ gw) = [] := by
      rw [List.filter_eq_nil_iff]
      intro a ha
      simp [hnew a ha]
    rw [h2, h3, List.append_nil] at h1
    exact h1
  have hmapnew : (new_ranks_list managers cr hr gw).map (fun r => r.manager_id) =
      managers.map (fun m => m.manager_id) := by
    unfold new_ranks_list
    rw [List.map_map]
    rfl
  refine ⟨?_, ?_, hfilter_ne, ?_⟩
  · exact ((hfilter_gw.map (fun r => r.manager_id)).nodup_iff).mpr (hmapnew ▸ hnd)
  · rw [hfilter_gw.length_eq]
    unfold new_ranks_list
    rw [List.length_map]
  · have hrfl : update_time_machine (update_time_machine df managers cr hr gw) managers cr hr gw =
        List.insertionSort tm_row_le
          ((update_time_machine df managers cr hr gw).filter (fun r => r.gameweek ≠ gw) ++
            new_ranks_list managers cr hr gw) := rfl
    rw [hrfl]
    exact (List.perm_insertionSort _ _).trans
      ((hfilter_ne.append_right _).trans hperm.symm)

/-- Witness for C8: a store holding one gameweek-1 row, updated for
gameweek 2 with two managers, holds exactly two gameweek-2 rows. -/
theorem C8_witness :
    ((update_time_machine [TimeMachineRow.mk 1 7 "x" 2 3]
        [Manager.mk 7 "x" "t", Manager.mk 8 "y" "u"]
        (fun _ => none) (fun _ => none) 2).filter (fun r => r.gameweek = 2)).length = 2 :=
  (C8_time_machine_upsert [TimeMachineRow.mk 1 7 "x" 2 3]
    [Manager.mk 7 "x" "t", Manager.mk 8 "y" "u"]
    (fun _ => none) (fun _ => none) 2 (by decide)).2.1

end FplPipeline
